import Mathlib

/-!
Shallow embedding of `src/upload.rs` from the gyazo-rs repository: the
single `Gyazo::upload` operation, which reads a file, assembles a
multipart form, POSTs it to the fixed upload endpoint and decodes the
JSON response into `UploadResponse`.
-/

namespace GyazoRs

/-- Modelled from the spec: `AccessPolicy` lives in `src/access_policy.rs`,
which is not part of the provided sources.  The spec enumerates the
visibility policy as "visible to anyone with link" vs "visible only to
uploader", and the option's documentation in `upload.rs` names the wire
values `anyone` and `only_me`. -/
inductive AccessPolicy
  | anyone
  | only_me
deriving DecidableEq, Repr

/-- Modelled from the spec: the wire rendering `AccessPolicy::as_str`,
producing the enumerated values named in the `access_policy` option's
documentation. -/
def AccessPolicy.as_str : AccessPolicy → String
  | .anyone => "anyone"
  | .only_me => "only_me"

/-- Modelled from the spec: the `Gyazo` client struct (defined outside
`src/upload.rs`) holds the configured access token; the HTTP client it
also holds is an external collaborator, modelled by `Env.exchange`. -/
structure Gyazo where
  access_token : String
deriving DecidableEq, Repr

/-- Raw file bytes (`Vec<u8>` in the source). -/
abbrev Bytes := List Nat

/-- A file-system path as `upload` observes it: `Path::to_str` returns
`some s` when the path is valid UTF-8 and `none` otherwise. -/
structure FsPath where
  toStr : Option String
deriving DecidableEq, Repr

/-- Struct `GyazoUploadOptions` from `upload.rs` lines 28–58: all fields optional.
The source's `created_at : Option<f64>` (Unix epoch seconds) is modelled
as an integer count of epoch seconds with decimal rendering. -/
structure GyazoUploadOptions where
  access_policy : Option AccessPolicy := none
  metadata_is_public : Option Bool := none
  referer_url : Option String := none
  app : Option String := none
  title : Option String := none
  desc : Option String := none
  created_at : Option Int := none
  collection_id : Option String := none
deriving DecidableEq, Repr

/-- Struct `UploadResponse` from `upload.rs` lines 8–22: six required string
fields (`r#type` in Rust is the plain name `type` here). -/
structure UploadResponse where
  created_at : String
  image_id : String
  permalink_url : String
  thumb_url : String
  type : String
  url : String
deriving DecidableEq, Repr

/-- One part of a `reqwest::multipart::Form`: a text field, or a file part
carrying filename metadata and raw bytes. -/
inductive Part
  | text (name value : String)
  | file (name fileName : String) (content : Bytes)
deriving DecidableEq, Repr

/-- A multipart form is the ordered list of its parts. -/
abbrev Form := List Part

/-- Rust's `bool::to_string`. -/
def rustBoolString (b : Bool) : String := if b then "true" else "false"

/-- Maps `Some(x)` to a one-element text field and `None` to `[]`: one conditional
`form = form.text(name, v)` append from `upload.rs` lines 87–112. -/
def optText (name : String) (v : Option String) : List Part :=
  match v with
  | some s => [Part.text name s]
  | none => []

/-- The optional text fields appended by the `if let Some(..)` chain in
`upload.rs` lines 87–112, in source order. -/
def optionFields (opts : GyazoUploadOptions) : List Part :=
  optText "access_policy" (opts.access_policy.map AccessPolicy.as_str)
    ++ optText "metadata_is_public" (opts.metadata_is_public.map rustBoolString)
    ++ optText "referer_url" opts.referer_url
    ++ optText "app" opts.app
    ++ optText "title" opts.title
    ++ optText "desc" opts.desc
    ++ optText "created_at" (opts.created_at.map toString)
    ++ optText "collection_id" opts.collection_id

/-- The full multipart form built in `upload.rs` lines 79–112: the
access-token text field, the `imagedata` file part (filename = the path's
string representation, content = the bytes read), then the optional
fields when an options value was passed. -/
def buildForm (token pathStr : String) (content : Bytes)
    (options : Option GyazoUploadOptions) : Form :=
  [Part.text "access_token" token, Part.file "imagedata" pathStr content]
    ++ (match options with
        | some opts => optionFields opts
        | none => [])

/-- The outbound HTTP request: fixed endpoint URL plus multipart body. -/
structure Request where
  url : String
  form : Form
deriving DecidableEq, Repr

/-- The fixed upload endpoint (`upload.rs` line 116). -/
def uploadUrl : String := "https://upload.gyazo.com/api/upload"

/-- A JSON value, for modelling the response body. -/
inductive Json
  | str (s : String)
  | num (n : Int)
  | bool (b : Bool)
  | null
  | arr (elems : List Json)
  | obj (fields : List (String × Json))

/-- An HTTP response as the client surfaces it: status code and body.
`body = none` models a body that is not well-formed JSON. -/
structure HttpResponse where
  status : Nat
  body : Option Json

/-- The error value `upload` returns (`reqwest::Error`), by failure mode:
a transport failure from `send()`, a status error from
`error_for_status()` carrying the code, or a body-decoding failure from
`json::<UploadResponse>()`. -/
inductive RError
  | transport
  | status (code : Nat)
  | decode
deriving DecidableEq, Repr

/-- The observable outcome of a call to `upload`: a panic (the process
aborts with the given message), an error value returned to the caller, or
a successful `UploadResponse`. -/
inductive Outcome
  | panicked (msg : String)
  | error (e : RError)
  | ok (r : UploadResponse)
deriving DecidableEq, Repr

/-- The environment a call runs in: the result of `fs::read` on the given
path (`none` = read failure), and the HTTP collaborator mapping the sent
request to a response (`none` = transport failure in `send()`). -/
structure Env where
  fileContent : Option Bytes
  exchange : Request → Option HttpResponse

/-- Models `reqwest::Response::error_for_status` (`upload.rs` line 120): an error
carrying the status for any client error (400–499) or server error
(500–599); every other status passes through. -/
def error_for_status (r : HttpResponse) : Except RError HttpResponse :=
  if 400 ≤ r.status ∧ r.status ≤ 599 then
    Except.error (RError.status r.status)
  else
    Except.ok r

/-- The six required fields of `UploadResponse`, as an enum for the
serde-generated deserializer model. -/
inductive UField
  | created_at
  | image_id
  | permalink_url
  | thumb_url
  | type
  | url
deriving DecidableEq, Repr, Fintype

/-- The JSON key of each required field (`r#type` deserializes from
`"type"`). -/
def UField.key : UField → String
  | .created_at => "created_at"
  | .image_id => "image_id"
  | .permalink_url => "permalink_url"
  | .thumb_url => "thumb_url"
  | .type => "type"
  | .url => "url"

/-- Recognize a JSON object key as one of the struct's fields; any other
key is unknown (the derive has no `deny_unknown_fields`, so unknown keys
are ignored). -/
def fieldOf (s : String) : Option UField :=
  if s = "created_at" then some UField.created_at
  else if s = "image_id" then some UField.image_id
  else if s = "permalink_url" then some UField.permalink_url
  else if s = "thumb_url" then some UField.thumb_url
  else if s = "type" then some UField.type
  else if s = "url" then some UField.url
  else none

/-- serde's visit of the JSON object's entries in order, accumulating the
seen fields: an unknown key is skipped, a known key must carry a string
value and must not repeat (duplicate fields are a deserialization
error). -/
def decodeFields : List (String × Json) → (UField → Option String) →
    Option (UField → Option String)
  | [], acc => some acc
  | (k, v) :: rest, acc =>
    match fieldOf k with
    | none => decodeFields rest acc
    | some f =>
      match acc f, v with
      | none, Json.str s =>
          decodeFields rest (fun g => if g = f then some s else acc g)
      | _, _ => none

/-- After the visit, every required field must have been seen. -/
def finalizeFields (acc : UField → Option String) : Option UploadResponse :=
  match acc UField.created_at, acc UField.image_id, acc UField.permalink_url,
      acc UField.thumb_url, acc UField.type, acc UField.url with
  | some c, some i, some p, some t, some ty, some u =>
      some ⟨c, i, p, t, ty, u⟩
  | _, _, _, _, _, _ => none

/-- Models `Response::json::<UploadResponse>` (`upload.rs` line 121): the body
must be a JSON object deserializing strictly into the six-field struct. -/
def decodeUploadResponse : Option Json → Option UploadResponse
  | some (Json.obj fields) =>
    match decodeFields fields (fun _ => none) with
    | some acc => finalizeFields acc
    | none => none
  | _ => none

/-- What a call to `upload` produced, and the request it sent
(`sent = none` when the call aborted before issuing any request). -/
structure UploadRun where
  result : Outcome
  sent : Option Request
deriving Repr

/-- Function `Gyazo::upload` (`upload.rs` lines 72–125), step by step:
`fs::read(..).expect("Failed to read the file")` panics on a read
failure; building the form unwraps `to_str()` and so panics on a
non-UTF-8 path; the request is POSTed to the fixed URL; `send()?`
surfaces a transport error; `error_for_status()?` surfaces a 4xx/5xx
status; `json()?` surfaces a decode failure; otherwise the decoded
response is returned. -/
def upload (g : Gyazo) (path : FsPath)
    (options : Option GyazoUploadOptions) (env : Env) : UploadRun :=
  match env.fileContent with
  | none => ⟨Outcome.panicked "Failed to read the file", none⟩
  | some content =>
    match path.toStr with
    | none =>
        ⟨Outcome.panicked "called `Option::unwrap()` on a `None` value",
         none⟩
    | some pathStr =>
      let form := buildForm g.access_token pathStr content options
      let req : Request := ⟨uploadUrl, form⟩
      match env.exchange req with
      | none => ⟨Outcome.error RError.transport, some req⟩
      | some resp =>
        match error_for_status resp with
        | Except.error e => ⟨Outcome.error e, some req⟩
        | Except.ok resp' =>
          match decodeUploadResponse resp'.body with
          | none => ⟨Outcome.error RError.decode, some req⟩
          | some r => ⟨Outcome.ok r, some req⟩

/-- Number of text fields in a form carrying a given field name. -/
def countTextNamed : Form → String → Nat
  | [], _ => 0
  | Part.text n _ :: rest, m => (if n = m then 1 else 0) + countTextNamed rest m
  | Part.file _ _ _ :: rest, m => countTextNamed rest m

/-- Counts 1 for a populated option, 0 for an absent one. -/
def optCount {α : Type} : Option α → Nat
  | some _ => 1
  | none => 0

/-- The request `upload` POSTs once file read and path conversion have
succeeded. -/
def sentRequest (g : Gyazo) (pathStr : String) (content : Bytes)
    (options : Option GyazoUploadOptions) : Request :=
  ⟨uploadUrl, buildForm g.access_token pathStr content options⟩

/-- Number of entries of a JSON object carrying a given key. -/
def countKey : List (String × Json) → String → Nat
  | [], _ => 0
  | (k, _) :: rest, m => (if k = m then 1 else 0) + countKey rest m

/-- Whether an outcome is an error value returned to the caller. -/
def Outcome.isError : Outcome → Bool
  | .error _ => true
  | _ => false

theorem countTextNamed_append (l₁ l₂ : Form) (m : String) :
    countTextNamed (l₁ ++ l₂) m = countTextNamed l₁ m + countTextNamed l₂ m := by
  induction l₁ with
  | nil => simp [countTextNamed]
  | cons p rest ih => cases p <;> simp [countTextNamed, ih, Nat.add_assoc]

theorem countTextNamed_optText (n m : String) (v : Option String) :
    countTextNamed (optText n v) m = if n = m then optCount v else 0 := by
  cases v <;> simp [optText, countTextNamed, optCount]

theorem optCount_map {α β : Type} (f : α → β) (v : Option α) :
    optCount (v.map f) = optCount v := by
  cases v <;> rfl

theorem upload_sent_eq (g : Gyazo) (path : FsPath)
    (options : Option GyazoUploadOptions) (env : Env)
    (content : Bytes) (pathStr : String)
    (h₁ : env.fileContent = some content) (h₂ : path.toStr = some pathStr) :
    (upload g path options env).sent =
      some (sentRequest g pathStr content options) := by
  simp only [upload, h₁, h₂]
  rcases hX : env.exchange ⟨uploadUrl, buildForm g.access_token pathStr content options⟩
    with _ | resp
  · simp [hX, sentRequest]
  · rcases hY : error_for_status resp with e | resp'
    · simp [hX, hY, sentRequest]
    · rcases hZ : decodeUploadResponse resp'.body with _ | r <;>
        simp [hX, hY, hZ, sentRequest]

/-- C3: for every `GyazoUploadOptions` value, the outgoing multipart form
contains exactly one text field per populated option and none for an
absent option, each under its fixed field name (`access_policy`,
`metadata_is_public`, `referer_url`, `app`, `title`, `desc`,
`created_at`, `collection_id`), with booleans rendered as `"true"` /
`"false"` and the timestamp rendered in decimal. -/
theorem upload_form_option_fields (token pathStr : String) (content : Bytes)
    (opts : GyazoUploadOptions) :
    (countTextNamed (buildForm token pathStr content (some opts)) "access_policy"
        = optCount opts.access_policy
      ∧ ∀ pol, opts.access_policy = some pol →
        Part.text "access_policy" pol.as_str
          ∈ buildForm token pathStr content (some opts))
    ∧ (countTextNamed (buildForm token pathStr content (some opts)) "metadata_is_public"
        = optCount opts.metadata_is_public
      ∧ ∀ b, opts.metadata_is_public = some b →
        Part.text "metadata_is_public" (rustBoolString b)
          ∈ buildForm token pathStr content (some opts))
    ∧ (countTextNamed (buildForm token pathStr content (some opts)) "referer_url"
        = optCount opts.referer_url
      ∧ ∀ s, opts.referer_url = some s →
        Part.text "referer_url" s ∈ buildForm token pathStr content (some opts))
    ∧ (countTextNamed (buildForm token pathStr content (some opts)) "app"
        = optCount opts.app
      ∧ ∀ s, opts.app = some s →
        Part.text "app" s ∈ buildForm token pathStr content (some opts))
    ∧ (countTextNamed (buildForm token pathStr content (some opts)) "title"
        = optCount opts.title
      ∧ ∀ s, opts.title = some s →
        Part.text "title" s ∈ buildForm token pathStr content (some opts))
    ∧ (countTextNamed (buildForm token pathStr content (some opts)) "desc"
        = optCount opts.desc
      ∧ ∀ s, opts.desc = some s →
        Part.text "desc" s ∈ buildForm token pathStr content (some opts))
    ∧ (countTextNamed (buildForm token pathStr content (some opts)) "created_at"
        = optCount opts.created_at
      ∧ ∀ t : Int, opts.created_at = some t →
        Part.text "created_at" (toString t)
          ∈ buildForm token pathStr content (some opts))
    ∧ (countTextNamed (buildForm token pathStr content (some opts)) "collection_id"
        = optCount opts.collection_id
      ∧ ∀ s, opts.collection_id = some s →
        Part.text "collection_id" s
          ∈ buildForm token pathStr content (some opts)) := by
  refine ⟨⟨?_, ?_⟩, ⟨?_, ?_⟩, ⟨?_, ?_⟩, ⟨?_, ?_⟩, ⟨?_, ?_⟩, ⟨?_, ?_⟩,
    ⟨?_, ?_⟩, ?_, ?_⟩ <;>
    first
    | (intro v hv
       simp [buildForm, optionFields, optText, hv])
    | simp [buildForm, optionFields, countTextNamed, countTextNamed_append,
        countTextNamed_optText, optCount_map]

/-- Witness for C3: a populated boolean and timestamp render as `"false"`
and `"1700000000"`, each appearing exactly once. -/
theorem upload_form_option_fields_witness :
    (countTextNamed
        (buildForm "tok" "a.png" [7]
          (some { metadata_is_public := some false,
                  created_at := some 1700000000 }))
        "metadata_is_public" = 1)
    ∧ Part.text "metadata_is_public" "false"
        ∈ buildForm "tok" "a.png" [7]
            (some { metadata_is_public := some false,
                    created_at := some 1700000000 })
    ∧ Part.text "created_at" "1700000000"
        ∈ buildForm "tok" "a.png" [7]
            (some { metadata_is_public := some false,
                    created_at := some 1700000000 })
    ∧ (countTextNamed
        (buildForm "tok" "a.png" [7]
          (some { metadata_is_public := some false,
                  created_at := some 1700000000 }))
        "title" = 0) :=
  let opts : GyazoUploadOptions :=
    { metadata_is_public := some false, created_at := some 1700000000 }
  let h := upload_form_option_fields "tok" "a.png" [7] opts
  ⟨h.2.1.1, h.2.1.2 false rfl, h.2.2.2.2.2.2.1.2 1700000000 rfl, h.2.2.2.2.1.1⟩

/-- C4: when no options value is passed, or the options value has no
populated field, the outgoing multipart form is exactly the access-token
text field followed by the `imagedata` file part. -/
theorem upload_form_empty_options (g : Gyazo) (path : FsPath)
    (options : Option GyazoUploadOptions) (env : Env)
    (content : Bytes) (pathStr : String)
    (h₁ : env.fileContent = some content) (h₂ : path.toStr = some pathStr)
    (h₃ : options = none ∨ options = some {}) :
    ∃ req, (upload g path options env).sent = some req ∧
      req.form = [Part.text "access_token" g.access_token,
                  Part.file "imagedata" pathStr content] := by
  refine ⟨sentRequest g pathStr content options,
    upload_sent_eq g path options env content pathStr h₁ h₂, ?_⟩
  rcases h₃ with h₃ | h₃ <;> subst h₃ <;> rfl

/-- Witness for C4 at a concrete call with no options. -/
theorem upload_form_empty_options_witness :
    ∃ req,
      (upload ⟨"tok"⟩ ⟨some "img.png"⟩ none
        ⟨some [0, 1], fun _ => none⟩).sent = some req ∧
      req.form = [Part.text "access_token" "tok",
                  Part.file "imagedata" "img.png" [0, 1]] :=
  upload_form_empty_options ⟨"tok"⟩ ⟨some "img.png"⟩ none
    ⟨some [0, 1], fun _ => none⟩ [0, 1] "img.png" rfl rfl (Or.inl rfl)

theorem fieldOf_key (f : UField) : fieldOf f.key = some f := by
  cases f <;> rfl

theorem fieldOf_eq_some {k : String} {f : UField} (h : fieldOf k = some f) :
    k = f.key := by
  unfold fieldOf at h
  split_ifs at h with h₁ h₂ h₃ h₄ h₅ h₆
  · cases h; exact h₁
  · cases h; exact h₂
  · cases h; exact h₃
  · cases h; exact h₄
  · cases h; exact h₅
  · cases h; exact h₆

theorem UField.key_inj {f g : UField} (h : f.key = g.key) : f = g := by
  cases f <;> cases g <;> simp_all [UField.key]

theorem countKey_eq_zero_not_mem {l : List (String × Json)} {m : String}
    (h : countKey l m = 0) (w : Json) : (m, w) ∉ l := by
  induction l with
  | nil => simp
  | cons e rest ih =>
    obtain ⟨k, v⟩ := e
    rcases eq_or_ne k m with hkm | hkm
    · subst hkm
      simp [countKey] at h
    · have h' : countKey rest m = 0 := by simpa [countKey, hkm] using h
      intro hmem
      rcases List.mem_cons.mp hmem with hh | hh
      · injection hh with ha _
        exact hkm ha.symm
      · exact ih h' hh

theorem decodeFields_complete (target : UField → String) :
    ∀ (l : List (String × Json)) (acc : UField → Option String),
    (∀ f : UField,
        (acc f = some (target f) ∧ countKey l f.key = 0) ∨
        (acc f = none ∧ countKey l f.key = 1 ∧
          (f.key, Json.str (target f)) ∈ l)) →
    ∃ acc', decodeFields l acc = some acc' ∧
      ∀ f, acc' f = some (target f) := by
  intro l
  induction l with
  | nil =>
    intro acc h
    refine ⟨acc, rfl, fun f => ?_⟩
    rcases h f with ⟨h₁, _⟩ | ⟨_, _, hmem⟩
    · exact h₁
    · simp at hmem
  | cons e rest ih =>
    intro acc h
    obtain ⟨k, v⟩ := e
    by_cases hk : ∃ f₀, fieldOf k = some f₀
    case neg =>
      have hknone : fieldOf k = none := by
        cases hfk : fieldOf k
        · rfl
        · exact absurd ⟨_, hfk⟩ hk
      have hkey : ∀ f : UField, k ≠ f.key := by
        intro f hf
        rw [hf, fieldOf_key] at hknone
        exact Option.noConfusion hknone
      simp only [decodeFields, hknone]
      apply ih
      intro f
      rcases h f with ⟨h₁, h₂⟩ | ⟨h₁, h₂, h₃⟩
      · left
        refine ⟨h₁, ?_⟩
        simpa [countKey, hkey f] using h₂
      · right
        refine ⟨h₁, ?_, ?_⟩
        · simpa [countKey, hkey f] using h₂
        · rcases List.mem_cons.mp h₃ with hh | hh
          · exfalso
            injection hh with h₄ _
            exact hkey f h₄.symm
          · exact hh
    case pos =>
      obtain ⟨f₀, hf₀⟩ := hk
      have hkk : k = f₀.key := fieldOf_eq_some hf₀
      subst hkk
      rcases h f₀ with ⟨h₁, h₂⟩ | ⟨h₁, h₂, h₃⟩
      · exfalso
        simp [countKey] at h₂
      · have hrest₀ : countKey rest f₀.key = 0 := by
          simp [countKey] at h₂
          omega
        have hv : v = Json.str (target f₀) := by
          rcases List.mem_cons.mp h₃ with hh | hh
          · injection hh with _ h₅
            exact h₅.symm
          · exact absurd hh (countKey_eq_zero_not_mem hrest₀ _)
        subst hv
        simp only [decodeFields, hf₀, h₁]
        apply ih
        intro f
        by_cases hf : f = f₀
        · subst hf
          left
          exact ⟨by simp, hrest₀⟩
        · have hkeys : f.key ≠ f₀.key := fun hc => hf (UField.key_inj hc)
          rcases h f with ⟨ha, hb⟩ | ⟨ha, hb, hc⟩
          · left
            refine ⟨by simp [hf, ha], ?_⟩
            simpa [countKey, Ne.symm hkeys] using hb
          · right
            refine ⟨by simp [hf, ha], ?_, ?_⟩
            · simpa [countKey, Ne.symm hkeys] using hb
            · rcases List.mem_cons.mp hc with hh | hh
              · exfalso
                injection hh with h₄ _
                exact hkeys h₄
              · exact hh

theorem decodeFields_none_preserved :
    ∀ (l : List (String × Json)) (acc : UField → Option String) (f : UField),
    acc f = none → countKey l f.key = 0 →
    ∀ acc', decodeFields l acc = some acc' → acc' f = none := by
  intro l
  induction l with
  | nil =>
    intro acc f h₁ h₂ acc' hd
    cases hd
    exact h₁
  | cons e rest ih =>
    intro acc f h₁ h₂ acc' hd
    obtain ⟨k, v⟩ := e
    have hkne : k ≠ f.key := by
      intro hc
      subst hc
      simp [countKey] at h₂
    have h₂' : countKey rest f.key = 0 := by
      simpa [countKey, hkne] using h₂
    cases hfk : fieldOf k with
    | none =>
      simp only [decodeFields, hfk] at hd
      exact ih acc f h₁ h₂' acc' hd
    | some f₀ =>
      have hk₀ : k = f₀.key := fieldOf_eq_some hfk
      have hfne : f ≠ f₀ := by
        intro hc
        subst hc
        exact hkne hk₀
      simp only [decodeFields, hfk] at hd
      cases hacc : acc f₀ with
      | none =>
        cases v <;> simp only [hacc] at hd <;> try exact Option.noConfusion hd
        case str s =>
          have hupd : (fun g => if g = f₀ then some s else acc g) f = none := by
            simp [hfne, h₁]
          exact ih _ f hupd h₂' acc' hd
      | some s₀ =>
        cases v <;> simp only [hacc] at hd <;> exact Option.noConfusion hd

theorem decodeFields_unknown_prepend :
    ∀ (extra l : List (String × Json)) (acc : UField → Option String),
    (∀ e ∈ extra, fieldOf e.1 = none) →
    decodeFields (extra ++ l) acc = decodeFields l acc := by
  intro extra
  induction extra with
  | nil => intro l acc _; rfl
  | cons e rest ih =>
    intro l acc h
    obtain ⟨k, v⟩ := e
    have hk : fieldOf k = none := h (k, v) (List.mem_cons_self _ _)
    simp only [List.cons_append, decodeFields, hk]
    exact ih l acc fun e' he' => h e' (List.mem_cons_of_mem _ he')

theorem decodeUploadResponse_missing (fl : List (String × Json)) (f : UField)
    (hmiss : countKey fl f.key = 0) :
    decodeUploadResponse (some (Json.obj fl)) = none := by
  simp only [decodeUploadResponse]
  cases hd : decodeFields fl (fun _ => none) with
  | none => rfl
  | some acc =>
    have hnone : acc f = none :=
      decodeFields_none_preserved fl _ f rfl hmiss acc hd
    unfold finalizeFields
    cases h₁ : acc UField.created_at <;> cases h₂ : acc UField.image_id <;>
      cases h₃ : acc UField.permalink_url <;> cases h₄ : acc UField.thumb_url <;>
      cases h₅ : acc UField.type <;> cases h₆ : acc UField.url <;>
      first
      | rfl
      | (cases f <;> simp_all)

theorem decodeUploadResponse_complete (fl : List (String × Json))
    (target : UField → String)
    (h : ∀ f : UField, countKey fl f.key = 1 ∧
      (f.key, Json.str (target f)) ∈ fl) :
    decodeUploadResponse (some (Json.obj fl)) =
      some ⟨target UField.created_at, target UField.image_id,
            target UField.permalink_url, target UField.thumb_url,
            target UField.type, target UField.url⟩ := by
  obtain ⟨acc', hd, hacc⟩ :=
    decodeFields_complete target fl (fun _ => none)
      (fun f => Or.inr ⟨rfl, (h f).1, (h f).2⟩)
  simp [decodeUploadResponse, hd, finalizeFields,
    hacc UField.created_at, hacc UField.image_id, hacc UField.permalink_url,
    hacc UField.thumb_url, hacc UField.type, hacc UField.url]

theorem decodeUploadResponse_unknown_prepend
    (extra fl : List (String × Json))
    (hextra : ∀ e ∈ extra, fieldOf e.1 = none) :
    decodeUploadResponse (some (Json.obj (extra ++ fl))) =
      decodeUploadResponse (some (Json.obj fl)) := by
  simp only [decodeUploadResponse,
    decodeFields_unknown_prepend extra fl _ hextra]

theorem file_not_mem_optText (n fn : String) (c : Bytes) (m : String)
    (v : Option String) : Part.file n fn c ∉ optText m v := by
  cases v <;> simp [optText]

theorem mem_buildForm_file {n fn : String} {c : Bytes} {token pathStr : String}
    {content : Bytes} {options : Option GyazoUploadOptions} :
    Part.file n fn c ∈ buildForm token pathStr content options ↔
      n = "imagedata" ∧ fn = pathStr ∧ c = content := by
  cases options with
  | none => simp [buildForm]
  | some opts =>
    simp [buildForm, optionFields, file_not_mem_optText]

/-- C8: whenever `upload` gets past reading the file and converting the
path, the request it sends has exactly one file part, named `imagedata`,
whose filename metadata is the path's string representation and whose
content is the raw bytes read from the file. -/
theorem upload_file_part (g : Gyazo) (path : FsPath)
    (options : Option GyazoUploadOptions) (env : Env)
    (content : Bytes) (pathStr : String)
    (h₁ : env.fileContent = some content) (h₂ : path.toStr = some pathStr) :
    ∃ req, (upload g path options env).sent = some req ∧
      Part.file "imagedata" pathStr content ∈ req.form ∧
      ∀ n fn c, Part.file n fn c ∈ req.form →
        n = "imagedata" ∧ fn = pathStr ∧ c = content := by
  refine ⟨sentRequest g pathStr content options,
    upload_sent_eq g path options env content pathStr h₁ h₂, ?_, ?_⟩
  · exact mem_buildForm_file.mpr ⟨rfl, rfl, rfl⟩
  · intro n fn c h
    exact mem_buildForm_file.mp h

/-- Witness for C8 at a concrete call. -/
theorem upload_file_part_witness :
    ∃ req,
      (upload ⟨"tk"⟩ ⟨some "photo.png"⟩ none
        ⟨some [255, 216], fun _ => none⟩).sent = some req ∧
      Part.file "imagedata" "photo.png" [255, 216] ∈ req.form ∧
      ∀ n fn c, Part.file n fn c ∈ req.form →
        n = "imagedata" ∧ fn = "photo.png" ∧ c = [255, 216] :=
  upload_file_part ⟨"tk"⟩ ⟨some "photo.png"⟩ none
    ⟨some [255, 216], fun _ => none⟩ [255, 216] "photo.png" rfl rfl

/-- C9: when the file is readable but the path's string representation is
not valid UTF-8 (`to_str` returns `None`), `upload` panics at the
`unwrap` during form construction and issues no request, instead of
returning an error. -/
theorem upload_panics_on_non_utf8_path (g : Gyazo) (path : FsPath)
    (options : Option GyazoUploadOptions) (env : Env) (content : Bytes)
    (h₁ : env.fileContent = some content) (h₂ : path.toStr = none) :
    (upload g path options env).result =
      Outcome.panicked "called `Option::unwrap()` on a `None` value" ∧
    (upload g path options env).sent = none := by
  constructor <;> simp [upload, h₁, h₂]

/-- Witness for C9: a readable file behind a non-UTF-8 path. -/
theorem upload_panics_on_non_utf8_path_witness :
    (upload ⟨"tok"⟩ ⟨none⟩ none ⟨some [1, 2, 3], fun _ => none⟩).result =
      Outcome.panicked "called `Option::unwrap()` on a `None` value" ∧
    (upload ⟨"tok"⟩ ⟨none⟩ none ⟨some [1, 2, 3], fun _ => none⟩).sent =
      none :=
  upload_panics_on_non_utf8_path ⟨"tok"⟩ ⟨none⟩ none
    ⟨some [1, 2, 3], fun _ => none⟩ [1, 2, 3] rfl rfl

/-- C1 (code behavior at the failing input): on a file-read failure the
call panics with the `expect` message `"Failed to read the file"` instead
of returning a `FileReadError`; it does issue no network request. -/
theorem upload_read_failure_panics :
    upload ⟨"tok"⟩ ⟨some "missing.png"⟩ none
      ⟨none, fun _ => some ⟨200, none⟩⟩ =
    ⟨Outcome.panicked "Failed to read the file", none⟩ := rfl

/-- C2 (code behavior at the failing input): a file-read failure never
reaches the caller as an error value at all — the call panics, so the
`FileReadError` failure mode is not propagated. -/
theorem upload_read_failure_not_an_error :
    ((upload ⟨"t2"⟩ ⟨some "b.png"⟩ none
        ⟨none, fun _ => none⟩).result).isError = false ∧
    (upload ⟨"t2"⟩ ⟨some "b.png"⟩ none ⟨none, fun _ => none⟩).result =
      Outcome.panicked "Failed to read the file" :=
  ⟨rfl, rfl⟩

/-- Post-read failure taxonomy: once the file is read and the path
converted, the three remaining failure modes map one-to-one onto
distinguishable error constructors: `transport` exactly when `send()`
fails, `status c` exactly when the final response's status is `c` with
400 ≤ c ≤ 599, and `decode` exactly when a non-4xx/5xx response's body
fails to deserialize. -/
theorem upload_error_taxonomy (g : Gyazo) (path : FsPath)
    (options : Option GyazoUploadOptions) (env : Env)
    (content : Bytes) (pathStr : String)
    (h₁ : env.fileContent = some content) (h₂ : path.toStr = some pathStr) :
    ((upload g path options env).result = Outcome.error RError.transport ↔
      env.exchange (sentRequest g pathStr content options) = none)
    ∧ (∀ c, (upload g path options env).result =
        Outcome.error (RError.status c) ↔
      ∃ resp, env.exchange (sentRequest g pathStr content options) = some resp
        ∧ resp.status = c ∧ 400 ≤ c ∧ c ≤ 599)
    ∧ ((upload g path options env).result = Outcome.error RError.decode ↔
      ∃ resp, env.exchange (sentRequest g pathStr content options) = some resp
        ∧ ¬(400 ≤ resp.status ∧ resp.status ≤ 599)
        ∧ decodeUploadResponse resp.body = none) := by
  simp only [upload, h₁, h₂]
  rcases hX : env.exchange ⟨uploadUrl, buildForm g.access_token pathStr content options⟩
    with _ | resp
  · refine ⟨?_, ?_, ?_⟩ <;> simp [hX, sentRequest]
  · by_cases hs : 400 ≤ resp.status ∧ resp.status ≤ 599
    · have hY : error_for_status resp =
          Except.error (RError.status resp.status) := by
        unfold error_for_status
        rw [if_pos hs]
      refine ⟨?_, ?_, ?_⟩
      · simp [hX, hY, sentRequest]
      · intro c
        simp only [hX, hY, sentRequest]
        constructor
        · intro hres
          simp only [Outcome.error.injEq, RError.status.injEq] at hres
          exact ⟨resp, rfl, hres, hres ▸ hs.1, hres ▸ hs.2⟩
        · rintro ⟨resp₂, hr₂, hs₂, _, _⟩
          cases hr₂
          simp [hs₂]
      · simp only [hX, hY, sentRequest]
        constructor
        · intro hres
          simp at hres
        · rintro ⟨resp₂, hr₂, hns₂, _⟩
          cases hr₂
          exact absurd hs hns₂
    · have hY : error_for_status resp = Except.ok resp := by
        unfold error_for_status
        rw [if_neg hs]
      rcases hd : decodeUploadResponse resp.body with _ | r
      · refine ⟨?_, ?_, ?_⟩
        · simp [hX, hY, hd, sentRequest]
        · intro c
          simp only [hX, hY, hd, sentRequest]
          constructor
          · intro hres
            simp at hres
          · rintro ⟨resp₂, hr₂, hs₂, hc₁, hc₂⟩
            cases hr₂
            exact absurd ⟨hs₂ ▸ hc₁, hs₂ ▸ hc₂⟩ hs
        · simp only [hX, hY, hd, sentRequest]
          exact ⟨fun _ => ⟨resp, rfl, hs, hd⟩, fun _ => trivial⟩
      · refine ⟨?_, ?_, ?_⟩
        · simp [hX, hY, hd, sentRequest]
        · intro c
          simp only [hX, hY, hd, sentRequest]
          constructor
          · intro hres
            simp at hres
          · rintro ⟨resp₂, hr₂, hs₂, hc₁, hc₂⟩
            cases hr₂
            exact absurd ⟨hs₂ ▸ hc₁, hs₂ ▸ hc₂⟩ hs
        · simp only [hX, hY, hd, sentRequest]
          constructor
          · intro hres
            simp at hres
          · rintro ⟨resp₂, hr₂, _, hd₂⟩
            cases hr₂
            rw [hd] at hd₂
            exact Option.noConfusion hd₂

/-- C5 counterexample: for the non-2xx status 304 the call does not
return a status error carrying 304 — `error_for_status` only treats
400–599 as errors, so the 304 response is passed on to JSON decoding and
the call fails with a decode error instead. -/
theorem upload_304_not_status_error :
    (upload ⟨"tok"⟩ ⟨some "c.png"⟩ none
      ⟨some [9], fun _ => some ⟨304, none⟩⟩).result =
        Outcome.error RError.decode ∧
    Outcome.error RError.decode ≠ Outcome.error (RError.status 304) :=
  ⟨rfl, by decide⟩

/-- C5 (amended): for every response whose status is a client or server
error (400–599), e.g. 401, the call returns a status error carrying that
status code and no parsed result. -/
theorem upload_status_error_on_4xx_5xx (g : Gyazo) (path : FsPath)
    (options : Option GyazoUploadOptions) (env : Env)
    (content : Bytes) (pathStr : String) (resp : HttpResponse)
    (h₁ : env.fileContent = some content) (h₂ : path.toStr = some pathStr)
    (hE : env.exchange = fun _ => some resp)
    (hS : 400 ≤ resp.status ∧ resp.status ≤ 599) :
    (upload g path options env).result =
      Outcome.error (RError.status resp.status) := by
  have hY : error_for_status resp =
      Except.error (RError.status resp.status) := by
    unfold error_for_status
    rw [if_pos hS]
  simp [upload, h₁, h₂, hE, hY]

/-- Witness for amended C5 at a concrete 401 response. -/
theorem upload_status_error_on_4xx_5xx_witness :
    (upload ⟨"tok"⟩ ⟨some "d.png"⟩ none
      ⟨some [5], fun _ => some ⟨401, none⟩⟩).result =
      Outcome.error (RError.status 401) :=
  upload_status_error_on_4xx_5xx ⟨"tok"⟩ ⟨some "d.png"⟩ none
    ⟨some [5], fun _ => some ⟨401, none⟩⟩ [5] "d.png" ⟨401, none⟩
    rfl rfl rfl (by decide)

/-- C6: for every 2xx response whose body is malformed JSON or is a JSON
object missing one of the six required fields, the call returns a decode
error. -/
theorem upload_decode_error_on_bad_body (g : Gyazo) (path : FsPath)
    (options : Option GyazoUploadOptions) (env : Env)
    (content : Bytes) (pathStr : String) (resp : HttpResponse)
    (h₁ : env.fileContent = some content) (h₂ : path.toStr = some pathStr)
    (hE : env.exchange = fun _ => some resp)
    (hS : 200 ≤ resp.status ∧ resp.status ≤ 299)
    (hbody : resp.body = none ∨ ∃ fl, resp.body = some (Json.obj fl) ∧
      ∃ f : UField, countKey fl f.key = 0) :
    (upload g path options env).result = Outcome.error RError.decode := by
  have hY : error_for_status resp = Except.ok resp := by
    unfold error_for_status
    rw [if_neg]
    omega
  have hdec : decodeUploadResponse resp.body = none := by
    rcases hbody with hb | ⟨fl, hb, f, hf⟩
    · rw [hb]
      rfl
    · rw [hb]
      exact decodeUploadResponse_missing fl f hf
  simp [upload, h₁, h₂, hE, hY, hdec]

/-- Witness for C6: a 200 response whose JSON object has every required
field except `image_id`. -/
theorem upload_decode_error_on_bad_body_witness :
    (upload ⟨"tok"⟩ ⟨some "e.png"⟩ none
      ⟨some [5],
       fun _ => some ⟨200, some (Json.obj
         [("created_at", Json.str "2024-01-01"),
          ("permalink_url", Json.str "https://gyazo.com/p"),
          ("thumb_url", Json.str "https://thumbs.gyazo.com/t"),
          ("type", Json.str "png"),
          ("url", Json.str "https://i.gyazo.com/u.png")])⟩⟩).result =
      Outcome.error RError.decode :=
  upload_decode_error_on_bad_body ⟨"tok"⟩ ⟨some "e.png"⟩ none
    ⟨some [5],
     fun _ => some ⟨200, some (Json.obj
       [("created_at", Json.str "2024-01-01"),
        ("permalink_url", Json.str "https://gyazo.com/p"),
        ("thumb_url", Json.str "https://thumbs.gyazo.com/t"),
        ("type", Json.str "png"),
        ("url", Json.str "https://i.gyazo.com/u.png")])⟩⟩
    [5] "e.png"
    ⟨200, some (Json.obj
       [("created_at", Json.str "2024-01-01"),
        ("permalink_url", Json.str "https://gyazo.com/p"),
        ("thumb_url", Json.str "https://thumbs.gyazo.com/t"),
        ("type", Json.str "png"),
        ("url", Json.str "https://i.gyazo.com/u.png")])⟩
    rfl rfl rfl (by decide)
    (Or.inr ⟨_, rfl, UField.image_id, by decide⟩)

/-- C7: for every 2xx response whose body is a JSON object carrying each
of the six required fields exactly once with a string value, the call
succeeds with an `UploadResponse` whose six fields are exactly those
string values, untransformed and fully populated. -/
theorem upload_roundtrip_success (g : Gyazo) (path : FsPath)
    (options : Option GyazoUploadOptions) (env : Env)
    (content : Bytes) (pathStr : String) (resp : HttpResponse)
    (fl : List (String × Json)) (target : UField → String)
    (h₁ : env.fileContent = some content) (h₂ : path.toStr = some pathStr)
    (hE : env.exchange = fun _ => some resp)
    (hS : 200 ≤ resp.status ∧ resp.status ≤ 299)
    (hB : resp.body = some (Json.obj fl))
    (hfields : ∀ f : UField, countKey fl f.key = 1 ∧
      (f.key, Json.str (target f)) ∈ fl) :
    (upload g path options env).result =
      Outcome.ok ⟨target UField.created_at, target UField.image_id,
        target UField.permalink_url, target UField.thumb_url,
        target UField.type, target UField.url⟩ := by
  have hY : error_for_status resp = Except.ok resp := by
    unfold error_for_status
    rw [if_neg]
    omega
  have hdec := decodeUploadResponse_complete fl target hfields
  rw [← hB] at hdec
  simp [upload, h₁, h₂, hE, hY, hdec]

/-- Witness for C7: a complete well-formed 200 body, fields listed in an
order different from the struct's, decodes into exactly those values. -/
theorem upload_roundtrip_success_witness :
    (upload ⟨"tok"⟩ ⟨some "f.png"⟩ none
      ⟨some [5],
       fun _ => some ⟨200, some (Json.obj
         [("image_id", Json.str "8980c52421e452ac3355ca3e5cfe7a0c"),
          ("type", Json.str "png"),
          ("created_at", Json.str "2014-05-21 14:23:10+0900"),
          ("url", Json.str "https://i.gyazo.com/8980c524.png"),
          ("permalink_url", Json.str "https://gyazo.com/8980c524"),
          ("thumb_url", Json.str "https://i.gyazo.com/thumb/8980c524.png")])⟩⟩).result =
      Outcome.ok ⟨"2014-05-21 14:23:10+0900",
        "8980c52421e452ac3355ca3e5cfe7a0c",
        "https://gyazo.com/8980c524",
        "https://i.gyazo.com/thumb/8980c524.png",
        "png",
        "https://i.gyazo.com/8980c524.png"⟩ :=
  upload_roundtrip_success ⟨"tok"⟩ ⟨some "f.png"⟩ none
    ⟨some [5],
     fun _ => some ⟨200, some (Json.obj
       [("image_id", Json.str "8980c52421e452ac3355ca3e5cfe7a0c"),
        ("type", Json.str "png"),
        ("created_at", Json.str "2014-05-21 14:23:10+0900"),
        ("url", Json.str "https://i.gyazo.com/8980c524.png"),
        ("permalink_url", Json.str "https://gyazo.com/8980c524"),
        ("thumb_url", Json.str "https://i.gyazo.com/thumb/8980c524.png")])⟩⟩
    [5] "f.png"
    ⟨200, some (Json.obj
       [("image_id", Json.str "8980c52421e452ac3355ca3e5cfe7a0c"),
        ("type", Json.str "png"),
        ("created_at", Json.str "2014-05-21 14:23:10+0900"),
        ("url", Json.str "https://i.gyazo.com/8980c524.png"),
        ("permalink_url", Json.str "https://gyazo.com/8980c524"),
        ("thumb_url", Json.str "https://i.gyazo.com/thumb/8980c524.png")])⟩
    [("image_id", Json.str "8980c52421e452ac3355ca3e5cfe7a0c"),
     ("type", Json.str "png"),
     ("created_at", Json.str "2014-05-21 14:23:10+0900"),
     ("url", Json.str "https://i.gyazo.com/8980c524.png"),
     ("permalink_url", Json.str "https://gyazo.com/8980c524"),
     ("thumb_url", Json.str "https://i.gyazo.com/thumb/8980c524.png")]
    (fun f => match f with
      | UField.created_at => "2014-05-21 14:23:10+0900"
      | UField.image_id => "8980c52421e452ac3355ca3e5cfe7a0c"
      | UField.permalink_url => "https://gyazo.com/8980c524"
      | UField.thumb_url => "https://i.gyazo.com/thumb/8980c524.png"
      | UField.type => "png"
      | UField.url => "https://i.gyazo.com/8980c524.png")
    rfl rfl rfl (by decide) rfl
    (by intro f; cases f <;> exact ⟨by simp [countKey, UField.key], by simp [UField.key]⟩)

/-- C10: deserialization is not deny-unknown — a 2xx body that carries
the six required fields plus any block of unrecognized fields still
succeeds; the extra fields are ignored. -/
theorem upload_ignores_unknown_fields (g : Gyazo) (path : FsPath)
    (options : Option GyazoUploadOptions) (env : Env)
    (content : Bytes) (pathStr : String) (resp : HttpResponse)
    (extra fl : List (String × Json)) (target : UField → String)
    (h₁ : env.fileContent = some content) (h₂ : path.toStr = some pathStr)
    (hE : env.exchange = fun _ => some resp)
    (hS : 200 ≤ resp.status ∧ resp.status ≤ 299)
    (hB : resp.body = some (Json.obj (extra ++ fl)))
    (hextra : ∀ e ∈ extra, fieldOf e.1 = none)
    (hfields : ∀ f : UField, countKey fl f.key = 1 ∧
      (f.key, Json.str (target f)) ∈ fl) :
    ∃ r, (upload g path options env).result = Outcome.ok r := by
  have hY : error_for_status resp = Except.ok resp := by
    unfold error_for_status
    rw [if_neg]
    omega
  have hdec := (decodeUploadResponse_unknown_prepend extra fl hextra).trans
    (decodeUploadResponse_complete fl target hfields)
  rw [← hB] at hdec
  refine ⟨⟨target UField.created_at, target UField.image_id,
    target UField.permalink_url, target UField.thumb_url,
    target UField.type, target UField.url⟩, ?_⟩
  simp [upload, h₁, h₂, hE, hY, hdec]

/-- Witness for C10: two unrecognized fields precede the six required
ones and the call still succeeds. -/
theorem upload_ignores_unknown_fields_witness :
    ∃ r,
      (upload ⟨"tok"⟩ ⟨some "g.png"⟩ none
        ⟨some [5],
         fun _ => some ⟨201, some (Json.obj
           ([("alt_text", Json.str "a dog"), ("stars", Json.num 3)] ++
            [("created_at", Json.str "c"),
             ("image_id", Json.str "i"),
             ("permalink_url", Json.str "p"),
             ("thumb_url", Json.str "t"),
             ("type", Json.str "ty"),
             ("url", Json.str "u")]))⟩⟩).result = Outcome.ok r :=
  upload_ignores_unknown_fields ⟨"tok"⟩ ⟨some "g.png"⟩ none
    ⟨some [5],
     fun _ => some ⟨201, some (Json.obj
       ([("alt_text", Json.str "a dog"), ("stars", Json.num 3)] ++
        [("created_at", Json.str "c"),
         ("image_id", Json.str "i"),
         ("permalink_url", Json.str "p"),
         ("thumb_url", Json.str "t"),
         ("type", Json.str "ty"),
         ("url", Json.str "u")]))⟩⟩
    [5] "g.png"
    ⟨201, some (Json.obj
       ([("alt_text", Json.str "a dog"), ("stars", Json.num 3)] ++
        [("created_at", Json.str "c"),
         ("image_id", Json.str "i"),
         ("permalink_url", Json.str "p"),
         ("thumb_url", Json.str "t"),
         ("type", Json.str "ty"),
         ("url", Json.str "u")]))⟩
    [("alt_text", Json.str "a dog"), ("stars", Json.num 3)]
    [("created_at", Json.str "c"),
     ("image_id", Json.str "i"),
     ("permalink_url", Json.str "p"),
     ("thumb_url", Json.str "t"),
     ("type", Json.str "ty"),
     ("url", Json.str "u")]
    (fun f => match f with
      | UField.created_at => "c"
      | UField.image_id => "i"
      | UField.permalink_url => "p"
      | UField.thumb_url => "t"
      | UField.type => "ty"
      | UField.url => "u")
    rfl rfl rfl (by decide) rfl
    (by intro e he; fin_cases he <;> rfl)
    (by intro f; cases f <;> exact ⟨by simp [countKey, UField.key], by simp [UField.key]⟩)

end GyazoRs
